import Mathlib

/-!
Shallow embedding of the crawl controller in src/scrap.py.

Pure string helpers mirror the Python helpers; the Selenium-driven parts
(page driver, DOM, CSV file) are modelled as explicit data: a Card records
the outcome of every selector lookup the code performs on one list item
(None models a raised-and-caught lookup exception), a Page is the rendered
DOM at one navigation state, a Source is the deterministic environment
mapping (offset, number of successful load-more clicks) to the rendered
Page plus the fault behaviour of the driver, and the CSV file is a list of
lines (header line or data row).  time.sleep and print calls are recorded
as LogEvent values at exactly the source sites that perform them.
-/

/-- CONFIG constant MAX_CLICKS_PER_SLICE from scrap.py line 28. -/
def MAX_CLICKS_PER_SLICE : Nat := 10000

/-- Fuel-driven worker for pySplit: Python str.split semantics on char
lists, scanning left to right for non-overlapping occurrences of a
non-empty separator.  The fuel is at least the length of the scanned list,
so the fuel-exhausted branch is never reached on the intended calls; it is
present only to make the recursion structural. -/
def pySplitAux (sep : List Char) : Nat → List Char → List Char → List (List Char)
  | 0, rest, acc => [acc.reverse ++ rest]
  | _ + 1, [], acc => [acc.reverse]
  | fuel + 1, c :: rest, acc =>
      if sep.isPrefixOf (c :: rest) then
        acc.reverse :: pySplitAux sep fuel (List.drop sep.length (c :: rest)) []
      else
        pySplitAux sep fuel rest (c :: acc)

/-- Python s.split(sep) for a non-empty separator. -/
def pySplit (s sep : String) : List String :=
  (pySplitAux sep.toList (s.toList.length + 1) s.toList []).map String.mk

/-- Python s.strip(): drop leading and trailing whitespace. -/
def pyStrip (s : String) : String :=
  String.mk (((s.toList.dropWhile Char.isWhitespace).reverse.dropWhile
      Char.isWhitespace).reverse)

/-- Python s.lower() (ASCII case folding). -/
def pyLower (s : String) : String := String.mk (s.toList.map Char.toLower)

/-- scrap.py lines 131-135: url.split("/title/")[1].split("/")[0], with the
IndexError (no "/title/" in the url) caught and mapped to "". -/
def parse_id_from_url (url : String) : String :=
  match pySplit url "/title/" with
  | _ :: seg :: _ => (pySplit seg "/").headD ""
  | _ => ""

/-- scrap.py lines 125-129: strip, and when the text looks like
"NN. Title" (numeric prefix before the first ". ") drop that prefix.
Python raw.split(". ", 1)[1] is the text after the first occurrence,
which equals the remaining parts of the full split rejoined with ". ". -/
def normalize_title (raw : String) : String :=
  let r := pyStrip raw
  match pySplit r ". " with
  | [] => r
  | [_] => r
  | pre :: rest =>
      if pre ≠ "" ∧ pre.toList.all Char.isDigit then String.intercalate ". " rest
      else r

/-- Python str.strip("()"): drop leading and trailing parenthesis chars. -/
def stripParens (s : String) : String :=
  let isParen : Char → Bool := fun c => c == '(' || c == ')'
  String.mk (((s.toList.dropWhile isParen).reverse.dropWhile isParen).reverse)

/-- Python s.replace(",", ""): remove every comma. -/
def pyReplaceComma (s : String) : String :=
  String.join (pySplit s ",")

/-- Python membership test "needle in hay" for a non-empty needle. -/
def pyIn (needle hay : String) : Bool := decide (1 < (pySplit hay needle).length)

/-- scrap.py lines 173-180: blurb of a new-layout card.  The argument is the
innerText of div.ipc-html-content-inner-div when the lookup succeeds. -/
def pick_blurb_new (inner : Option String) : String :=
  match inner with
  | some t0 => let t := pyStrip t0; if t.length > 20 then t else ""
  | none => ""

/-- Keyword list from scrap.py line 167. -/
def blurbOldKeywords : List String := ["director", "star", "metascore", "votes"]

/-- Loop body test of pick_blurb_old (scrap.py lines 164-168). -/
def blurbOldOk (p : String) : Bool :=
  let txt := pyStrip p
  let low := pyLower txt
  decide (txt.length > 20) && blurbOldKeywords.all (fun k => !(pyIn k low))

/-- scrap.py lines 161-171: first paragraph text that is long enough and
holds none of the metadata keywords, stripped; "" when none qualifies. -/
def pick_blurb_old (ps : List String) : String :=
  match ps.find? blurbOldOk with
  | some p => pyStrip p
  | none => ""

/-- One emitted record, the dict built at scrap.py lines 237-245. -/
structure Row where
  movieName : String
  imdbId : String
  url : String
  rating : String
  votingCounts : String
  duration : String
  blurb : String
deriving DecidableEq, Repr

/-- One rendered list item together with the outcome of every selector
lookup parse_cards_into_rows performs on it; none models a lookup that
raises (and is caught).  Fields prefixed new/old belong to the respective
layout branch. -/
structure Card where
  href : Option String
  newTitle : Option String
  linkText : String
  newRating : Option String
  newVotes : Option String
  newTimeSpans : List String
  newBlurbInner : Option String
  oldRating : Option String
  oldVotesNv : List (Option String × String)
  oldTime : Option String
  oldBlurbPs : List String
deriving DecidableEq, Repr

inductive Layout
  | new
  | old
deriving DecidableEq, Repr

/-- The rendered DOM: the matches of the new-layout and old-layout item
selectors (scrap.py lines 137-143). -/
structure Page where
  newCards : List Card
  oldCards : List Card
deriving Repr

/-- scrap.py lines 137-143: prefer the new-layout items, fall back to the
old layout when the new selector matches nothing. -/
def get_all_cards (p : Page) : List Card × Layout :=
  if p.newCards.isEmpty then (p.oldCards, Layout.old) else (p.newCards, Layout.new)

/-- Body of the per-card loop of parse_cards_into_rows (scrap.py lines
186-231) up to and including building the row; none models the outer
try/except continue (the link lookup failed). -/
def parseCard (layout : Layout) (li : Card) : Option Row :=
  match li.href with
  | none => none
  | some h =>
    let url := (pySplit h "?").headD ""
    match layout with
    | Layout.new =>
      let title :=
        match li.newTitle with
        | some t => normalize_title t
        | none => pyStrip li.linkText
      let rating := (li.newRating.map pyStrip).getD ""
      let votes := (li.newVotes.map (fun v => pyReplaceComma (stripParens v))).getD ""
      let duration :=
        if li.newTimeSpans.length ≥ 2 then pyStrip (li.newTimeSpans.getD 1 "") else ""
      let blurb := pick_blurb_new li.newBlurbInner
      some { movieName := title, imdbId := parse_id_from_url url, url := url,
             rating := rating, votingCounts := votes, duration := duration,
             blurb := blurb }
    | Layout.old =>
      let title := normalize_title li.linkText
      let rating := (li.oldRating.map pyStrip).getD ""
      let votes :=
        match li.oldVotesNv with
        | [] => ""
        | nv :: _ =>
            let dv := nv.1.getD ""
            pyReplaceComma (if dv = "" then nv.2 else dv)
      let duration := (li.oldTime.map pyStrip).getD ""
      let blurb := pick_blurb_old li.oldBlurbPs
      some { movieName := title, imdbId := parse_id_from_url url, url := url,
             rating := rating, votingCounts := votes, duration := duration,
             blurb := blurb }

/-- Filter at scrap.py lines 233-235: drop a row with an empty identity or
one already in the global ledger or in the slice set. -/
def keepRow (seen_global seen_slice : List String) (r : Row) : Bool :=
  !(r.imdbId == "" || seen_global.contains r.imdbId || seen_slice.contains r.imdbId)

/-- scrap.py lines 182-246: parse every card of the current page, skipping
cards whose link lookup fails, then keep only rows with a fresh non-empty
identity.  The seen sets are read, never written. -/
def parse_cards_into_rows (page : Page) (seen_global seen_slice : List String) :
    List Row :=
  let cl := get_all_cards page
  (cl.1.filterMap (parseCard cl.2)).filter (keepRow seen_global seen_slice)

/-- One line of the output CSV file. -/
inductive CsvLine
  | header
  | row (r : Row)
deriving DecidableEq, Repr

/-- scrap.py lines 248-256: open in append mode when the file exists, in
write mode (emitting the header first) when it does not, then write the
rows.  The file is modelled as Option (List CsvLine), none = absent. -/
def append_rows (store : Option (List CsvLine)) (rows : List Row) : List CsvLine :=
  match store with
  | some lines => lines ++ rows.map CsvLine.row
  | none => CsvLine.header :: rows.map CsvLine.row

/-- Identity column of the persisted store (data rows only). -/
def csvIds (lines : List CsvLine) : List String :=
  lines.filterMap fun l =>
    match l with
    | CsvLine.header => none
    | CsvLine.row r => some r.imdbId

/-- scrap.py lines 383-390: hydrate the ledger from the IMDb ID column of
the existing CSV; an absent file yields the empty ledger. -/
def hydrate_seen (store : Option (List CsvLine)) : List String :=
  match store with
  | none => []
  | some ls => csvIds ls

/-- Number of data rows in the store. -/
def rowCountOpt (store : Option (List CsvLine)) : Nat :=
  (hydrate_seen store).length

/-- Number of header lines in a CSV file. -/
def headerCount (lines : List CsvLine) : Nat :=
  (lines.filter fun l => l == CsvLine.header).length

/-- Deterministic environment for one slice: the rendered page and driver
behaviour as a function of the request.  pageAt o k is the DOM after
navigating to the listing at start offset o and performing k successful
load-more clicks; hasMore o k tells whether find_50_more finds a button in
that state; clickFails o k models both click paths failing; navFault o
models driver.get raising WebDriverException for the page at offset o, and
navFaultRetry o the retry after recreating the session also raising;
layoutTimeout o models wait_for_any_layout timing out at offset o. -/
structure Source where
  pageAt : Nat → Nat → Page
  hasMore : Nat → Nat → Bool
  clickFails : Nat → Nat → Bool
  navFault : Nat → Bool
  navFaultRetry : Nat → Bool
  layoutTimeout : Nat → Bool

/-- Observable actions of scrape_month_with_load_more: one constructor per
print or sleep site in the source.  There is no constructor for reaching
MAX_CLICKS_PER_SLICE because the source prints nothing at that exit. -/
inductive LogEvent
  | savedInitial (n : Nat)
  | noNewAtStart (offset : Nat)
  | buttonGone
  | sleepShort
  | sleepThrottle
  | clickFailed
  | savedAfterClick (n : Nat)
  | noNewAfterClick
deriving DecidableEq, Repr

/-- Mutable state threaded through one slice: the CSV file, the global
ledger seen_global, the per-slice set seen_slice and the saved_in_slice
counter (scrap.py lines 264-265 initialise the last three). -/
structure SliceSt where
  store : Option (List CsvLine)
  sg : List String
  ss : List String
  saved : Nat
deriving DecidableEq, Repr

/-- scrap.py lines 292-296 and 345-349: append the rows to the CSV, add
every appended identity to seen_global and seen_slice, and advance
saved_in_slice by the number of appended rows. -/
def appendAndMark (st : SliceSt) (rows : List Row) : SliceSt :=
  { store := some (append_rows st.store rows)
    sg := st.sg ++ rows.map Row.imdbId
    ss := st.ss ++ rows.map Row.imdbId
    saved := st.saved + rows.length }

/-- The if-rows guard around every save site (scrap.py lines 292 and
345): persist and mark only when the parse produced fresh rows. -/
def initialSave (st : SliceSt) (rows : List Row) : SliceSt :=
  if rows.isEmpty then st else appendAndMark st rows

/-- Outcome of the expansion loop: final state, final clicks counter and
the emitted events. -/
structure ExpandOut where
  st : SliceSt
  clicks : Nat
  events : List LogEvent
deriving DecidableEq, Repr

/-- scrap.py lines 301-355: the load-more loop at offset o.  The while
guard clicks < MAX_CLICKS_PER_SLICE is modelled by the fuel argument
(fuel = MAX_CLICKS_PER_SLICE - clicks on entry); absence of the button or
a failed click breaks out; otherwise the newly rendered window is parsed
and any fresh rows are appended and marked before the next round. -/
def expandLoop (src : Source) (o : Nat) : Nat → Nat → SliceSt → ExpandOut
  | 0, clicks, st => ⟨st, clicks, []⟩
  | fuel + 1, clicks, st =>
    if src.hasMore o clicks then
      if src.clickFails o clicks then
        ⟨st, clicks, [LogEvent.sleepShort, LogEvent.clickFailed]⟩
      else
        let rows := parse_cards_into_rows (src.pageAt o (clicks + 1)) st.sg st.ss
        let st2 := initialSave st rows
        let ev := if rows.isEmpty then LogEvent.noNewAfterClick
                  else LogEvent.savedAfterClick rows.length
        let r := expandLoop src o fuel (clicks + 1) st2
        ⟨r.st, r.clicks,
          [LogEvent.sleepShort, LogEvent.sleepShort, ev, LogEvent.sleepThrottle]
            ++ r.events⟩
    else
      ⟨st, clicks, [LogEvent.buttonGone]⟩

/-- Outcome data of one outer iteration of scrape_month_with_load_more:
resulting state, number of driver.get calls, emitted events, and the trace
of fetches as pairs (requested offset, data rows in the store at fetch
time). -/
structure StepOut where
  st : SliceSt
  gets : Nat
  events : List LogEvent
  trace : List (Nat × Nat)
deriving DecidableEq, Repr

/-- Control outcome of one outer iteration: raised propagates a
WebDriverException out of the function, ret is the return of
saved_in_slice (timeout bail-out, probe failure, or empty probe), next
repeats the outer while-True loop. -/
inductive StepRes
  | raised (o : StepOut)
  | ret (o : StepOut)
  | next (o : StepOut)
deriving DecidableEq, Repr

/-- The parse-save-expand body of one outer iteration (scrap.py lines
291-355): parse and save the initial window at offset saved + 1, then run
the expansion loop there; yields the state after full expansion and the
emitted events. -/
def stepCore (src : Source) (fuel : Nat) (st : SliceSt) : SliceSt × List LogEvent :=
  let offset := st.saved + 1
  let rows := parse_cards_into_rows (src.pageAt offset 0) st.sg st.ss
  let st1 := initialSave st rows
  let ev1 := if rows.isEmpty then LogEvent.noNewAtStart offset
             else LogEvent.savedInitial rows.length
  let ex := expandLoop src offset fuel 0 st1
  (ex.st, ev1 :: ex.events)

/-- One iteration of the outer while-True loop of
scrape_month_with_load_more (scrap.py lines 268-376): compute the offset,
navigate with the crash guard, bail out on layout timeout, run the
parse-save-expand body, then probe the next offset and decide whether the
slice is complete. -/
def sliceStep (src : Source) (fuel : Nat) (st : SliceSt) : StepRes :=
  let offset := st.saved + 1
  let tr0 : List (Nat × Nat) := [(offset, rowCountOpt st.store)]
  if src.navFault offset && src.navFaultRetry offset then
    StepRes.raised ⟨st, 2, [], tr0⟩
  else
    let g1 : Nat := if src.navFault offset then 2 else 1
    if src.layoutTimeout offset then
      StepRes.ret ⟨st, g1, [], tr0⟩
    else
      let core := stepCore src fuel st
      let st2 := core.1
      let probeOffset := st2.saved + 1
      let out : StepOut := ⟨st2, g1 + 1, core.2, tr0 ++ [(probeOffset, rowCountOpt st2.store)]⟩
      if src.navFault probeOffset || src.layoutTimeout probeOffset then
        StepRes.ret out
      else
        let probe := parse_cards_into_rows (src.pageAt probeOffset 0) st2.sg st2.ss
        if probe.isEmpty then StepRes.ret out
        else StepRes.next out

/-- Project the outcome data out of a step result. -/
def StepRes.out : StepRes → StepOut
  | StepRes.raised o => o
  | StepRes.ret o => o
  | StepRes.next o => o

/-- Accumulated outcome of a whole call of scrape_month_with_load_more. -/
structure SliceOut where
  st : SliceSt
  gets : Nat
  events : List LogEvent
  trace : List (Nat × Nat)
deriving DecidableEq, Repr

/-- raised = a WebDriverException escaped the call; done = the function
returned saved_in_slice; fuelOut is a model artifact marking outer-loop
fuel exhaustion (the Python loop is while True). -/
inductive SliceRes
  | raised (o : SliceOut)
  | done (o : SliceOut)
  | fuelOut (o : SliceOut)
deriving DecidableEq, Repr

/-- Project the accumulated outcome out of a slice result. -/
def SliceRes.out : SliceRes → SliceOut
  | SliceRes.raised o => o
  | SliceRes.done o => o
  | SliceRes.fuelOut o => o

/-- Concatenate the outcome of one iteration with the rest of the run. -/
def combineOut (a : StepOut) (b : SliceOut) : SliceOut :=
  ⟨b.st, a.gets + b.gets, a.events ++ b.events, a.trace ++ b.trace⟩

/-- The outer while-True loop of scrape_month_with_load_more, iterated up
to fuel times (the fuel only bounds the model, not the code). -/
def sliceLoop (src : Source) : Nat → SliceSt → SliceRes
  | 0, st => SliceRes.fuelOut ⟨st, 0, [], []⟩
  | fuel + 1, st =>
    match sliceStep src MAX_CLICKS_PER_SLICE st with
    | StepRes.raised o => SliceRes.raised ⟨o.st, o.gets, o.events, o.trace⟩
    | StepRes.ret o => SliceRes.done ⟨o.st, o.gets, o.events, o.trace⟩
    | StepRes.next o =>
      match sliceLoop src fuel o.st with
      | SliceRes.raised o2 => SliceRes.raised (combineOut o o2)
      | SliceRes.done o2 => SliceRes.done (combineOut o o2)
      | SliceRes.fuelOut o2 => SliceRes.fuelOut (combineOut o o2)

/-- scrap.py lines 259-378: one call of scrape_month_with_load_more.
saved_in_slice starts at 0 and seen_slice starts empty on every call. -/
def scrape_month (src : Source) (fuel : Nat) (store : Option (List CsvLine))
    (sg : List String) : SliceRes :=
  sliceLoop src fuel ⟨store, sg, [], 0⟩

/-- Identities persisted after a slice run. -/
def finalStoreIds (r : SliceRes) : List String := hydrate_seen r.out.st.store

/-- scrap.py lines 395-406: the runner calls the slice; when a
WebDriverException escapes, it recreates the driver and calls the slice
once more; a second escape propagates and aborts the run (crashed =
true). -/
structure RunSliceOut where
  crashed : Bool
  st : SliceSt
  gets : Nat
  events : List LogEvent
deriving DecidableEq, Repr

/-- Per-slice recovery wrapper of scrape_all_from_listing. -/
def runSliceWithRecovery (src : Source) (fuel : Nat)
    (store : Option (List CsvLine)) (sg : List String) : RunSliceOut :=
  match scrape_month src fuel store sg with
  | SliceRes.done o => ⟨false, o.st, o.gets, o.events⟩
  | SliceRes.fuelOut o => ⟨false, o.st, o.gets, o.events⟩
  | SliceRes.raised o =>
    match scrape_month src fuel o.st.store o.st.sg with
    | SliceRes.done o2 => ⟨false, o2.st, o.gets + o2.gets, o.events ++ o2.events⟩
    | SliceRes.fuelOut o2 => ⟨false, o2.st, o.gets + o2.gets, o.events ++ o2.events⟩
    | SliceRes.raised o2 => ⟨true, o2.st, o.gets + o2.gets, o.events ++ o2.events⟩

/-- A restart of the pipeline on an existing store: the ledger is
rehydrated from the persisted output (scrap.py lines 383-390) and the
slice is driven again. -/
def resumeRun (src : Source) (fuel : Nat) (store : Option (List CsvLine)) :
    SliceRes :=
  scrape_month src fuel store (hydrate_seen store)

/-- Test fixture: a healthy new-layout card for the given href and raw
title text. -/
def newCard (href title : String) : Card :=
  { href := some href
    newTitle := some title
    linkText := ""
    newRating := some "8.0"
    newVotes := some "(1,234)"
    newTimeSpans := ["2024", "2h 3m"]
    newBlurbInner := some "A sufficiently long storyline blurb for tests."
    oldRating := none
    oldVotesNv := []
    oldTime := none
    oldBlurbPs := [] }

/-- Test fixture card with identity tt0000001. -/
def cardA : Card := newCard "https://www.imdb.com/title/tt0000001/?ref_=sr" "1. Alpha"

/-- Test fixture card with identity tt0000002. -/
def cardB : Card := newCard "https://www.imdb.com/title/tt0000002/" "2. Beta"

/-- Test fixture: a new-layout page holding the given cards. -/
def pageOf (cs : List Card) : Page := ⟨cs, []⟩

/-- Test fixture: a page matching no item selector. -/
def emptyPage : Page := ⟨[], []⟩

/-- Test fixture: a fault-free source without load-more buttons, serving
cardA at offset 1 and cardB at offset 2. -/
def srcAB : Source :=
  { pageAt := fun o _ => if o = 1 then pageOf [cardA]
      else if o = 2 then pageOf [cardB] else emptyPage
    hasMore := fun _ _ => false
    clickFails := fun _ _ => false
    navFault := fun _ => false
    navFaultRetry := fun _ => false
    layoutTimeout := fun _ => false }

/-- Identities of every card the page parses into, before the freshness
filter: the identity column that one parse pass would derive from the
rendered page. -/
def pageRowIds (p : Page) : List String :=
  let cl := get_all_cards p
  (cl.1.filterMap (parseCard cl.2)).map Row.imdbId

/-- Data rows of a CSV file. -/
def csvRows (lines : List CsvLine) : List Row :=
  lines.filterMap fun l =>
    match l with
    | CsvLine.header => none
    | CsvLine.row r => some r

/-- A sequence of append_rows calls against an evolving store. -/
def applyAppends (store : Option (List CsvLine)) (batches : List (List Row)) :
    Option (List CsvLine) :=
  batches.foldl (fun s b => some (append_rows s b)) store

/-- Whether the slice call returned normally. -/
def SliceRes.isDone : SliceRes → Bool
  | SliceRes.done _ => true
  | _ => false

/-- Make every extraction strategy for the rating field fail on the card. -/
def killRating : Layout → Card → Card
  | Layout.new, c => { c with newRating := none }
  | Layout.old, c => { c with oldRating := none }

/-- Make every extraction strategy for the vote-count field fail. -/
def killVotes : Layout → Card → Card
  | Layout.new, c => { c with newVotes := none }
  | Layout.old, c => { c with oldVotesNv := [] }

/-- Make every extraction strategy for the duration field fail. -/
def killDuration : Layout → Card → Card
  | Layout.new, c => { c with newTimeSpans := [] }
  | Layout.old, c => { c with oldTime := none }

/-- Make every extraction strategy for the blurb field fail. -/
def killBlurb : Layout → Card → Card
  | Layout.new, c => { c with newBlurbInner := none }
  | Layout.old, c => { c with oldBlurbPs := [] }

/-- The record parsed from cardA. -/
def rowA : Row :=
  { movieName := "Alpha", imdbId := "tt0000001",
    url := "https://www.imdb.com/title/tt0000001/", rating := "8.0",
    votingCounts := "1234", duration := "2h 3m",
    blurb := "A sufficiently long storyline blurb for tests." }

/-- The record parsed from cardB. -/
def rowB : Row :=
  { movieName := "Beta", imdbId := "tt0000002",
    url := "https://www.imdb.com/title/tt0000002/", rating := "8.0",
    votingCounts := "1234", duration := "2h 3m",
    blurb := "A sufficiently long storyline blurb for tests." }

/-- Two distinct cards carrying the same identity tt0000007 (their urls
differ only after stripping). -/
def cardD1 : Card := newCard "https://www.imdb.com/title/tt0000007/?ref_=a" "1. Gamma"

/-- Second card with the identity tt0000007. -/
def cardD2 : Card := newCard "https://www.imdb.com/title/tt0000007/x?ref_=b" "1. Gamma"

/-- Fault-free source whose offset-1 page shows the two duplicate cards. -/
def srcDup : Source :=
  { pageAt := fun o _ => if o = 1 then pageOf [cardD1, cardD2] else emptyPage
    hasMore := fun _ _ => false
    clickFails := fun _ _ => false
    navFault := fun _ => false
    navFaultRetry := fun _ => false
    layoutTimeout := fun _ => false }

/-- Source whose driver faults on every navigation, including after a
session restart: the model of a target that always reports blocked at the
transport level. -/
def srcBlocked : Source :=
  { pageAt := fun _ _ => emptyPage
    hasMore := fun _ _ => false
    clickFails := fun _ _ => false
    navFault := fun _ => true
    navFaultRetry := fun _ => true
    layoutTimeout := fun _ => false }

/-- Source whose pages load but never show a known layout: the model of a
soft block that starves wait_for_any_layout. -/
def srcSoftBlocked : Source :=
  { pageAt := fun _ _ => emptyPage
    hasMore := fun _ _ => false
    clickFails := fun _ _ => false
    navFault := fun _ => false
    navFaultRetry := fun _ => false
    layoutTimeout := fun _ => true }

/-- Fault-free source for the completion-probe scenario: offset 1 shows
cardA with no button; offset 2 immediately shows only cardA again, but its
load-more control is present and one click would reveal cardB. -/
def srcProbe : Source :=
  { pageAt := fun o k =>
      if o = 1 then pageOf [cardA]
      else if o = 2 then (if k = 0 then pageOf [cardA] else pageOf [cardA, cardB])
      else emptyPage
    hasMore := fun o k => o == 2 && k == 0
    clickFails := fun _ _ => false
    navFault := fun _ => false
    navFaultRetry := fun _ => false
    layoutTimeout := fun _ => false }

/-- Source whose load-more button never disappears while its pages stay
empty: drives the expansion loop into its iteration ceiling. -/
def srcEndlessButton : Source :=
  { pageAt := fun _ _ => emptyPage
    hasMore := fun _ _ => true
    clickFails := fun _ _ => false
    navFault := fun _ => false
    navFaultRetry := fun _ => false
    layoutTimeout := fun _ => false }

/-- The per-click event block of an expansion round that found no new
rows. -/
def noNewClickEvents : List LogEvent :=
  [LogEvent.sleepShort, LogEvent.sleepShort, LogEvent.noNewAfterClick,
   LogEvent.sleepThrottle]

/-- Initial state of a fresh run: no file, empty ledger. -/
def freshSt : SliceSt := ⟨none, [], [], 0⟩

/-- Fault-free source that renders the same single-card window at every
offset and click, with no expansion control: a one-record corpus that is
trivially expansion-complete. -/
def srcOnePage : Source :=
  { pageAt := fun _ _ => pageOf [cardA]
    hasMore := fun _ _ => false
    clickFails := fun _ _ => false
    navFault := fun _ => false
    navFaultRetry := fun _ => false
    layoutTimeout := fun _ => false }

/-- State b extends state a by exactly the identity set new, in all three
places at once: the global ledger, the slice set and the persisted
store. -/
def growsBy (a b : SliceSt) (new : List String) : Prop :=
  (∀ x, x ∈ b.sg ↔ x ∈ a.sg ∨ x ∈ new) ∧
  (∀ x, x ∈ b.ss ↔ x ∈ a.ss ∨ x ∈ new) ∧
  (∀ x, x ∈ hydrate_seen b.store ↔ x ∈ hydrate_seen a.store ∨ x ∈ new)

/-- The state after the first outer iteration of a fresh run on srcAB. -/
def stAB1 : SliceSt :=
  ⟨some [CsvLine.header, CsvLine.row rowA], ["tt0000001"], ["tt0000001"], 1⟩

/-- The state after the second outer iteration of a fresh run on srcAB. -/
def stAB2 : SliceSt :=
  ⟨some [CsvLine.header, CsvLine.row rowA, CsvLine.row rowB],
   ["tt0000001", "tt0000002"], ["tt0000001", "tt0000002"], 2⟩

-- sanity checks of the string helpers against the Python semantics
example : parse_id_from_url "https://www.imdb.com/title/tt123/" = "tt123" := by decide
example : parse_id_from_url "https://www.imdb.com/search/" = "" := by decide
example : normalize_title " 12. Dune. Part Two " = "Dune. Part Two" := by decide
example : normalize_title "Dune" = "Dune" := by decide
example : pyReplaceComma (stripParens "(1,234)") = "1234" := by decide
example : pick_blurb_old ["Director: X", "A very long storyline paragraph indeed"] =
    "A very long storyline paragraph indeed" := by decide

-- sanity checks of the slice machinery on the small fixture source
example :
    (parse_cards_into_rows (pageOf [cardA]) [] []).map Row.imdbId = ["tt0000001"] := by
  decide
example : finalStoreIds (scrape_month srcAB 5 none []) = ["tt0000001", "tt0000002"] := by
  decide
example : (scrape_month srcAB 5 none []).out.trace = [(1, 0), (2, 1), (2, 1), (3, 2)] := by
  decide
example : parse_cards_into_rows (pageOf [cardA]) [] [] = [rowA] := by decide
example : parse_cards_into_rows (pageOf [cardB]) [] [] = [rowB] := by decide
example :
    (parse_cards_into_rows (pageOf [cardD1, cardD2]) [] []).map Row.imdbId
      = ["tt0000007", "tt0000007"] := by decide
example : (scrape_month srcProbe 5 none []).isDone = true := by decide
example : finalStoreIds (scrape_month srcProbe 5 none []) = ["tt0000001"] := by decide

/-! ## Helper lemmas -/

/-- Every row surviving the freshness filter of parse_cards_into_rows has
a non-empty identity absent from both seen sets. -/
theorem keep_of_mem_parse {page : Page} {sg ss : List String} {r : Row}
    (h : r ∈ parse_cards_into_rows page sg ss) :
    r.imdbId ≠ "" ∧ r.imdbId ∉ sg ∧ r.imdbId ∉ ss := by
  unfold parse_cards_into_rows at h
  have h2 := (List.mem_filter.mp h).2
  simp only [keepRow] at h2
  simp at h2
  exact ⟨h2.1.1, h2.1.2, h2.2⟩

/-! ## C1 -/

/-- C1, counterexample.  One parse pass over a page holding two cards that
carry the same identity tt0000007 emits two rows with that identity, and
the run persists both: after the slice run on srcDup the persisted store
holds the identity twice, so an identity can be persisted twice within a
run.  The interim sets cannot prevent this because they are only updated
after append_rows returns (scrap.py lines 293-295). -/
theorem C1_counterexample :
    (parse_cards_into_rows (pageOf [cardD1, cardD2]) [] []).map Row.imdbId
        = ["tt0000007", "tt0000007"] ∧
    (finalStoreIds (scrape_month srcDup 5 none [])).count "tt0000007" = 2 ∧
    (scrape_month srcDup 5 none []).isDone = true := by decide

/-- C1, amended: every record appended during a run has a non-empty
identity that, when its parse pass started, was absent from both the
global ledger and the slice set (their union); distinct parse passes can
therefore never persist the same identity twice, but a single pass that
returns two cards with the same identity appends that identity twice
(C1_counterexample), to be removed only by the terminal dedup pass. -/
theorem C1_append_only_fresh (page : Page) (sg ss : List String) (r : Row)
    (h : r ∈ parse_cards_into_rows page sg ss) :
    r.imdbId ≠ "" ∧ r.imdbId ∉ sg ∧ r.imdbId ∉ ss :=
  keep_of_mem_parse h

/-- Witness for C1_append_only_fresh at a concrete page and ledger. -/
theorem C1_witness :
    rowB.imdbId ≠ "" ∧ rowB.imdbId ∉ ["tt0000001"] ∧ rowB.imdbId ∉ ([] : List String) :=
  C1_append_only_fresh (pageOf [cardB]) ["tt0000001"] [] rowB (by decide)

/-! ## C8 -/

/-- C8: a card whose URL-derived identity is empty is dropped entirely:
no row with an empty identity is ever emitted by the parse step (first
conjunct, so nothing is appended for it), and a URL without a "/title/"
segment derives the empty identity (second conjunct). -/
theorem C8_empty_identity_dropped :
    (∀ (page : Page) (sg ss : List String) (r : Row),
        r ∈ parse_cards_into_rows page sg ss → r.imdbId ≠ "") ∧
    (∀ url : String, (pySplit url "/title/").length ≤ 1 → parse_id_from_url url = "") := by
  constructor
  · intro page sg ss r h
    exact (keep_of_mem_parse h).1
  · intro url h
    unfold parse_id_from_url
    match hm : pySplit url "/title/" with
    | [] => rfl
    | [_] => rfl
    | a :: b :: t => rw [hm] at h; simp at h

/-- Witness for C8_empty_identity_dropped at concrete inputs. -/
theorem C8_witness :
    rowA.imdbId ≠ "" ∧ parse_id_from_url "https://www.imdb.com/search/" = "" :=
  ⟨C8_empty_identity_dropped.1 (pageOf [cardA]) [] [] rowA (by decide),
   C8_empty_identity_dropped.2 "https://www.imdb.com/search/" (by decide)⟩

/-! ## C9 -/

/-- No header line hides among mapped data rows. -/
theorem headerCount_map_row (rows : List Row) :
    headerCount (rows.map CsvLine.row) = 0 := by
  induction rows with
  | nil => rfl
  | cons r t ih => simpa [headerCount, List.filter_cons] using ih

/-- headerCount distributes over concatenation. -/
theorem headerCount_append (a b : List CsvLine) :
    headerCount (a ++ b) = headerCount a + headerCount b := by
  simp [headerCount, List.filter_append]

/-- csvRows recovers exactly the mapped rows. -/
theorem csvRows_map_row (rows : List Row) : csvRows (rows.map CsvLine.row) = rows := by
  induction rows with
  | nil => rfl
  | cons r t ih => simpa [csvRows, List.filterMap_cons] using ih

/-- csvRows distributes over concatenation. -/
theorem csvRows_append (a b : List CsvLine) :
    csvRows (a ++ b) = csvRows a ++ csvRows b := by
  simp [csvRows, List.filterMap_append]

/-- Chaining appends onto an existing file never changes the header count
and accumulates the rows in order. -/
theorem applyAppends_some (batches : List (List Row)) :
    ∀ f : List CsvLine, ∃ g, applyAppends (some f) batches = some g ∧
      headerCount g = headerCount f ∧ csvRows g = csvRows f ++ batches.join := by
  induction batches with
  | nil => intro f; exact ⟨f, rfl, rfl, by simp⟩
  | cons b bs ih =>
    intro f
    obtain ⟨g, h1, h2, h3⟩ := ih (append_rows (some f) b)
    refine ⟨g, h1, ?_, ?_⟩
    · rw [h2]; simp [append_rows, headerCount_append, headerCount_map_row]
    · rw [h3]; simp [append_rows, csvRows_append, csvRows_map_row]

/-- C9: append_rows opens in append mode when the file exists and in
write mode otherwise, emitting the header exactly when the file did not
previously exist: a fresh store receives exactly one header line (first
conjunct), appending to an existing file changes no header and appends
the rows at the end (second conjunct), and any non-empty sequence of
appends starting from an absent file yields a file with exactly one
header holding all appended rows in order (third conjunct). -/
theorem C9_header_exactly_once :
    (∀ rows, headerCount (append_rows none rows) = 1) ∧
    (∀ ls rows, headerCount (append_rows (some ls) rows) = headerCount ls ∧
        csvRows (append_rows (some ls) rows) = csvRows ls ++ rows) ∧
    (∀ batches : List (List Row), batches ≠ [] →
        ∃ f, applyAppends none batches = some f ∧ headerCount f = 1 ∧
          csvRows f = batches.join) := by
  refine ⟨?_, ?_, ?_⟩
  · intro rows
    simp [append_rows, headerCount, List.filter_cons, headerCount_map_row]
  · intro ls rows
    constructor
    · simp [append_rows, headerCount_append, headerCount_map_row]
    · simp [append_rows, csvRows_append, csvRows_map_row]
  · intro batches hne
    match batches with
    | [] => exact absurd rfl hne
    | b :: bs =>
      obtain ⟨g, h1, h2, h3⟩ := applyAppends_some bs (append_rows none b)
      refine ⟨g, h1, ?_, ?_⟩
      · rw [h2]
        simpa [append_rows, headerCount, List.filter_cons] using headerCount_map_row b
      · rw [h3]
        simp [append_rows, csvRows, List.filterMap_cons, csvRows_map_row]
        simpa [csvRows] using csvRows_map_row b

/-- Witness for C9_header_exactly_once on a concrete run of two appends. -/
theorem C9_witness :
    headerCount (append_rows none [rowA]) = 1 ∧
    (headerCount (append_rows (some [CsvLine.header, CsvLine.row rowA]) [rowB])
        = headerCount [CsvLine.header, CsvLine.row rowA] ∧
      csvRows (append_rows (some [CsvLine.header, CsvLine.row rowA]) [rowB])
        = csvRows [CsvLine.header, CsvLine.row rowA] ++ [rowB]) ∧
    (∃ f, applyAppends none [[rowA], [rowB]] = some f ∧ headerCount f = 1 ∧
      csvRows f = [[rowA], [rowB]].join) :=
  ⟨C9_header_exactly_once.1 [rowA],
   C9_header_exactly_once.2.1 [CsvLine.header, CsvLine.row rowA] [rowB],
   C9_header_exactly_once.2.2 [[rowA], [rowB]] (by decide)⟩

/-! ## C4 -/

/-- C4: for a card whose identity is derivable (the parse emitted a
record), knocking out every extraction strategy of any single optional
field (rating, vote count, duration or blurb) still emits the record,
with exactly that field turned into the empty string and every other
field unchanged. -/
theorem C4_field_independence (lay : Layout) (c : Card) (r : Row)
    (h : parseCard lay c = some r) :
    parseCard lay (killRating lay c) = some { r with rating := "" } ∧
    parseCard lay (killVotes lay c) = some { r with votingCounts := "" } ∧
    parseCard lay (killDuration lay c) = some { r with duration := "" } ∧
    parseCard lay (killBlurb lay c) = some { r with blurb := "" } := by
  cases hc : c.href with
  | none =>
    rw [parseCard, hc] at h
    cases lay <;> simp at h
  | some u =>
    cases lay <;>
      (simp only [parseCard, hc, killRating, killVotes, killDuration, killBlurb,
        Option.some.injEq] at h ⊢ <;>
       subst h <;>
       refine ⟨?_, ?_, ?_, ?_⟩ <;>
       simp [pick_blurb_new, pick_blurb_old])

/-- Witness for C4_field_independence at the concrete cardA. -/
theorem C4_witness :
    parseCard Layout.new (killRating Layout.new cardA) = some { rowA with rating := "" } ∧
    parseCard Layout.new (killVotes Layout.new cardA)
      = some { rowA with votingCounts := "" } ∧
    parseCard Layout.new (killDuration Layout.new cardA)
      = some { rowA with duration := "" } ∧
    parseCard Layout.new (killBlurb Layout.new cardA) = some { rowA with blurb := "" } :=
  C4_field_independence Layout.new cardA rowA (by decide)

/-! ## C2 -/

/-- C2, counterexample.  Against a target whose driver faults on every
navigation, the code does not make maxRestarts linearly backed-off
attempts and does not report failure upward as a skip: it makes 4 fetch
attempts in all (two inside the slice call, two more in the single
retry of the slice by the runner), sleeps zero times between them (the event
trace is empty), and the final fault propagates and crashes the run. -/
theorem C2_counterexample :
    (runSliceWithRecovery srcBlocked 5 none []).crashed = true ∧
    (runSliceWithRecovery srcBlocked 5 none []).gets = 4 ∧
    (runSliceWithRecovery srcBlocked 5 none []).events = [] := by decide

/-- C2, amended: a navigation fault is retried once after recreating the
session (two driver.get attempts per slice call, no sleep in between);
the runner retries the whole slice call once more after recreating the
session, so a target whose driver always faults sees exactly four fetch
attempts, no backoff sleeps, and then the exception aborts the run
instead of being absorbed as a skip.  A target that loads but never
shows a known layout (soft block) ends the slice after a single fetch
attempt with the state unchanged, and the run continues with the next
slice. -/
theorem C2_no_backoff_controller (src src2 : Source)
    (hf : ∀ o, src.navFault o = true) (hr : ∀ o, src.navFaultRetry o = true)
    (h2f : ∀ o, src2.navFault o = false) (h2t : ∀ o, src2.layoutTimeout o = true)
    (fuel : Nat) (hfuel : 1 ≤ fuel) (store : Option (List CsvLine)) (sg : List String) :
    (runSliceWithRecovery src fuel store sg).crashed = true ∧
    (runSliceWithRecovery src fuel store sg).gets = 4 ∧
    (runSliceWithRecovery src fuel store sg).events = [] ∧
    scrape_month src2 fuel store sg
      = SliceRes.done ⟨⟨store, sg, [], 0⟩, 1, [], [(1, rowCountOpt store)]⟩ := by
  obtain ⟨n, rfl⟩ : ∃ n, fuel = n + 1 := ⟨fuel - 1, by omega⟩
  have hstep : ∀ st : SliceSt, sliceStep src MAX_CLICKS_PER_SLICE st
      = StepRes.raised ⟨st, 2, [], [(st.saved + 1, rowCountOpt st.store)]⟩ := by
    intro st
    unfold sliceStep
    simp [hf, hr]
  have hmonth : ∀ store' sg', scrape_month src (n + 1) store' sg'
      = SliceRes.raised ⟨⟨store', sg', [], 0⟩, 2, [], [(1, rowCountOpt store')]⟩ := by
    intro store' sg'
    unfold scrape_month sliceLoop
    rw [hstep]
  have hrun : runSliceWithRecovery src (n + 1) store sg
      = ⟨true, ⟨store, sg, [], 0⟩, 4, []⟩ := by
    unfold runSliceWithRecovery
    simp only [hmonth]
    rfl
  refine ⟨by rw [hrun], by rw [hrun], by rw [hrun], ?_⟩
  have hstep2 : sliceStep src2 MAX_CLICKS_PER_SLICE ⟨store, sg, [], 0⟩
      = StepRes.ret ⟨⟨store, sg, [], 0⟩, 1, [], [(1, rowCountOpt store)]⟩ := by
    unfold sliceStep
    simp [h2f, h2t]
  unfold scrape_month sliceLoop
  rw [hstep2]

/-! ## C5 -/

/-- csvIds recovers exactly the identities of mapped rows. -/
theorem csvIds_map_row (rows : List Row) :
    csvIds (rows.map CsvLine.row) = rows.map Row.imdbId := by
  induction rows with
  | nil => rfl
  | cons r t ih => simpa [csvIds, List.filterMap_cons] using ih

/-- csvIds distributes over concatenation. -/
theorem csvIds_append (a b : List CsvLine) : csvIds (a ++ b) = csvIds a ++ csvIds b := by
  simp [csvIds, List.filterMap_append]

/-- One append grows the durable row count by the batch size. -/
theorem rowCount_append_rows (store : Option (List CsvLine)) (rows : List Row) :
    rowCountOpt (some (append_rows store rows)) = rowCountOpt store + rows.length := by
  cases store with
  | none => simp [rowCountOpt, hydrate_seen, append_rows, csvIds, List.filterMap_cons,
      csvIds_map_row]
  | some ls => simp [rowCountOpt, hydrate_seen, append_rows, csvIds_append, csvIds_map_row]

/-- appendAndMark keeps saved_in_slice equal to the store growth since the
invocation began (k is the durable row count at invocation start). -/
theorem appendAndMark_rowCount (st : SliceSt) (rows : List Row) (k : Nat)
    (h : rowCountOpt st.store = k + st.saved) :
    rowCountOpt (appendAndMark st rows).store = k + (appendAndMark st rows).saved := by
  simp [appendAndMark, rowCount_append_rows, h]
  omega

/-- initialSave preserves the store-growth accounting. -/
theorem initialSave_rowCount (st : SliceSt) (rows : List Row) (k : Nat)
    (h : rowCountOpt st.store = k + st.saved) :
    rowCountOpt (initialSave st rows).store = k + (initialSave st rows).saved := by
  unfold initialSave
  split
  · exact h
  · exact appendAndMark_rowCount st rows k h

/-- The expansion loop preserves the store-growth accounting. -/
theorem expandLoop_rowCount (src : Source) (o k : Nat) :
    ∀ fuel clicks (st : SliceSt), rowCountOpt st.store = k + st.saved →
      rowCountOpt (expandLoop src o fuel clicks st).st.store
        = k + (expandLoop src o fuel clicks st).st.saved := by
  intro fuel
  induction fuel with
  | zero => intro clicks st h; exact h
  | succ f ih =>
    intro clicks st h
    unfold expandLoop
    split
    · split
      · exact h
      · exact ih (clicks + 1) _ (initialSave_rowCount st _ k h)
    · exact h

/-- The parse-save-expand body preserves the store-growth accounting. -/
theorem stepCore_rowCount (src : Source) (f : Nat) (st : SliceSt) (k : Nat)
    (h : rowCountOpt st.store = k + st.saved) :
    rowCountOpt (stepCore src f st).1.store = k + (stepCore src f st).1.saved := by
  unfold stepCore
  exact expandLoop_rowCount src (st.saved + 1) k f 0 _ (initialSave_rowCount st _ k h)

/-- The state a step reports is either the entry state or the state after
the parse-save-expand body. -/
theorem sliceStep_out_st (src : Source) (f : Nat) (st : SliceSt) :
    (sliceStep src f st).out.st = st ∨
    (sliceStep src f st).out.st = (stepCore src f st).1 := by
  simp only [sliceStep]
  split
  · exact Or.inl rfl
  · split
    · exact Or.inl rfl
    · split
      · exact Or.inr rfl
      · split
        · exact Or.inr rfl
        · exact Or.inr rfl

/-- The fetch trace a step reports: the initial fetch alone, or the
initial fetch followed by the probe fetch issued from the post-expansion
state. -/
theorem sliceStep_out_trace (src : Source) (f : Nat) (st : SliceSt) :
    (sliceStep src f st).out.trace = [(st.saved + 1, rowCountOpt st.store)] ∨
    (sliceStep src f st).out.trace = [(st.saved + 1, rowCountOpt st.store),
      ((stepCore src f st).1.saved + 1, rowCountOpt (stepCore src f st).1.store)] := by
  simp only [sliceStep]
  split
  · exact Or.inl rfl
  · split
    · exact Or.inl rfl
    · split
      · exact Or.inr rfl
      · split
        · exact Or.inr rfl
        · exact Or.inr rfl

/-- One outer iteration preserves the accounting, and every fetch it
records requests offset (rows stored at fetch time) - k + 1. -/
theorem sliceStep_trace_inv (src : Source) (f : Nat) (st : SliceSt) (k : Nat)
    (h : rowCountOpt st.store = k + st.saved) :
    rowCountOpt (sliceStep src f st).out.st.store
      = k + (sliceStep src f st).out.st.saved ∧
    ∀ p ∈ (sliceStep src f st).out.trace, p.1 + k = p.2 + 1 ∧ k ≤ p.2 := by
  have h2 := stepCore_rowCount src f st k h
  constructor
  · rcases sliceStep_out_st src f st with he | he <;> rw [he]
    · exact h
    · exact h2
  · rcases sliceStep_out_trace src f st with he | he <;> rw [he] <;>
      intro p hp <;> simp at hp
    · subst hp; constructor <;> omega
    · rcases hp with hp | hp <;> subst hp <;> constructor <;> omega

/-- Every fetch of a whole slice run requests offset (rows stored at fetch
time) - k + 1, where k is the durable row count at invocation start. -/
theorem sliceLoop_trace_inv (src : Source) (k : Nat) :
    ∀ fuel (st : SliceSt), rowCountOpt st.store = k + st.saved →
      ∀ p ∈ (sliceLoop src fuel st).out.trace, p.1 + k = p.2 + 1 ∧ k ≤ p.2 := by
  intro fuel
  induction fuel with
  | zero =>
    intro st h p hp
    simp [sliceLoop, SliceRes.out] at hp
  | succ f ih =>
    intro st h p hp
    have hstep := sliceStep_trace_inv src MAX_CLICKS_PER_SLICE st k h
    unfold sliceLoop at hp
    rcases he : sliceStep src MAX_CLICKS_PER_SLICE st with o | o | o <;>
      rw [he] at hp hstep <;> simp only [StepRes.out, SliceRes.out] at hp hstep
    · exact hstep.2 p hp
    · exact hstep.2 p hp
    · rcases hr : sliceLoop src f o.st with o2 | o2 | o2 <;>
        rw [hr] at hp <;>
        simp only [SliceRes.out, combineOut, List.mem_append] at hp <;>
        rcases hp with hp | hp
      · exact hstep.2 p hp
      · have := ih o.st hstep.1 p (by rw [hr]; exact hp)
        exact this
      · exact hstep.2 p hp
      · exact ih o.st hstep.1 p (by rw [hr]; exact hp)
      · exact hstep.2 p hp
      · exact ih o.st hstep.1 p (by rw [hr]; exact hp)

/-- C5, amended: every fetch of a slice invocation (initial fetches and
completion probes alike) requests offset savedInSlice + 1 where
savedInSlice equals the number of rows this invocation has appended so
far (the growth of the persisted store since the invocation began); the
counter restarts at zero on every invocation instead of being re-derived
from the persisted store, so a rerun fetches offset 1 first regardless of
how many records of the slice are already durably stored
(C5_counterexample). -/
theorem C5_offset_counts_run_local_rows (src : Source) (fuel : Nat)
    (store : Option (List CsvLine)) (sg : List String) (p : Nat × Nat)
    (hp : p ∈ (scrape_month src fuel store sg).out.trace) :
    p.1 = (p.2 - rowCountOpt store) + 1 ∧ rowCountOpt store ≤ p.2 := by
  have h := sliceLoop_trace_inv src (rowCountOpt store) fuel ⟨store, sg, [], 0⟩
    (by simp) p hp
  omega

/-- C5, counterexample.  After an uninterrupted run on srcAB the store
durably holds 2 rows of the slice, yet the first fetch of a rerun requests
offset 1 (the trace records offset 1 with 2 rows already stored), not
offset 2 + 1: savedCountInSlice is not computed from the persisted store,
so the rerun does not re-derive the previous offset. -/
theorem C5_counterexample :
    rowCountOpt (scrape_month srcAB 5 none []).out.st.store = 2 ∧
    (resumeRun srcAB 5 (scrape_month srcAB 5 none []).out.st.store).out.trace.head?
      = some (1, 2) := by decide

/-- Witness for C5_offset_counts_run_local_rows at a concrete fetch. -/
theorem C5_witness : (2 : Nat) = (1 - rowCountOpt (none : Option (List CsvLine))) + 1 ∧
    rowCountOpt (none : Option (List CsvLine)) ≤ 1 :=
  C5_offset_counts_run_local_rows srcAB 5 none [] (2, 1) (by decide)

/-! ## C6 -/

/-- Saving never decreases saved_in_slice. -/
theorem initialSave_saved_le (st : SliceSt) (rows : List Row) :
    st.saved ≤ (initialSave st rows).saved := by
  unfold initialSave
  split
  · exact Nat.le_refl _
  · simp [appendAndMark]

/-- A save that leaves saved_in_slice unchanged appended nothing. -/
theorem initialSave_eq_of_saved_eq (st : SliceSt) (rows : List Row)
    (h : (initialSave st rows).saved = st.saved) :
    initialSave st rows = st ∧ rows = [] := by
  cases rows with
  | nil => exact ⟨rfl, rfl⟩
  | cons r t =>
    exfalso
    simp [initialSave, appendAndMark] at h

/-- The expansion loop never decreases saved_in_slice. -/
theorem expandLoop_saved_le (src : Source) (o : Nat) :
    ∀ fuel clicks (st : SliceSt),
      st.saved ≤ (expandLoop src o fuel clicks st).st.saved := by
  intro fuel
  induction fuel with
  | zero => intro clicks st; exact Nat.le_refl _
  | succ f ih =>
    intro clicks st
    unfold expandLoop
    split
    · split
      · exact Nat.le_refl _
      · exact Nat.le_trans (initialSave_saved_le st _) (ih (clicks + 1) _)
    · exact Nat.le_refl _

/-- An expansion pass that leaves saved_in_slice unchanged changes
nothing at all in the slice state. -/
theorem expandLoop_st_eq_of_saved_eq (src : Source) (o : Nat) :
    ∀ fuel clicks (st : SliceSt),
      (expandLoop src o fuel clicks st).st.saved = st.saved →
      (expandLoop src o fuel clicks st).st = st := by
  intro fuel
  induction fuel with
  | zero => intro _ _ _; rfl
  | succ f ih =>
    intro clicks st h
    cases hm : src.hasMore o clicks with
    | false => simp [expandLoop, hm]
    | true =>
      cases hc : src.clickFails o clicks with
      | true => simp [expandLoop, hm, hc]
      | false =>
        simp only [expandLoop, hm, hc] at h ⊢
        simp only [if_true, Bool.false_eq_true, if_false] at h ⊢
        have h1 := initialSave_saved_le st
          (parse_cards_into_rows (src.pageAt o (clicks + 1)) st.sg st.ss)
        have h2 := expandLoop_saved_le src o f (clicks + 1)
          (initialSave st (parse_cards_into_rows (src.pageAt o (clicks + 1)) st.sg st.ss))
        have hs : (initialSave st
            (parse_cards_into_rows (src.pageAt o (clicks + 1)) st.sg st.ss)).saved
            = st.saved := by omega
        obtain ⟨he, -⟩ := initialSave_eq_of_saved_eq st _ hs
        rw [he] at h ⊢
        exact ih (clicks + 1) st h

/-- The parse-save-expand body never decreases saved_in_slice. -/
theorem stepCore_saved_le (src : Source) (f : Nat) (st : SliceSt) :
    st.saved ≤ (stepCore src f st).1.saved := by
  simp only [stepCore]
  exact Nat.le_trans (initialSave_saved_le st _) (expandLoop_saved_le src _ f 0 _)

/-- A parse-save-expand body that leaves saved_in_slice unchanged changes
nothing, and its offset page parsed to zero fresh rows. -/
theorem stepCore_st_eq_of_saved_eq (src : Source) (f : Nat) (st : SliceSt)
    (h : (stepCore src f st).1.saved = st.saved) :
    (stepCore src f st).1 = st ∧
    parse_cards_into_rows (src.pageAt (st.saved + 1) 0) st.sg st.ss = [] := by
  simp only [stepCore] at h ⊢
  have h1 := initialSave_saved_le st
    (parse_cards_into_rows (src.pageAt (st.saved + 1) 0) st.sg st.ss)
  have h2 := expandLoop_saved_le src (st.saved + 1) f 0
    (initialSave st (parse_cards_into_rows (src.pageAt (st.saved + 1) 0) st.sg st.ss))
  have hs : (initialSave st
      (parse_cards_into_rows (src.pageAt (st.saved + 1) 0) st.sg st.ss)).saved
      = st.saved := by omega
  obtain ⟨he, hrows⟩ := initialSave_eq_of_saved_eq st _ hs
  rw [he] at h ⊢
  exact ⟨expandLoop_st_eq_of_saved_eq src _ f 0 st h, hrows⟩

/-- Inversion of a continuing step: its state is the post-expansion state
and the probe parse from that state was non-empty. -/
theorem sliceStep_next_inv (src : Source) (f : Nat) (st : SliceSt) (o : StepOut)
    (h : sliceStep src f st = StepRes.next o) :
    o.st = (stepCore src f st).1 ∧
    parse_cards_into_rows (src.pageAt (o.st.saved + 1) 0) o.st.sg o.st.ss ≠ [] := by
  simp only [sliceStep] at h
  split at h
  · cases h
  · split at h
    · cases h
    · split at h
      · cases h
      · split at h
        · cases h
        · rename_i hprobe
          injection h with h
          subst h
          refine ⟨rfl, ?_⟩
          simpa [List.isEmpty_iff] using hprobe

/-- Inversion of a returning step on a fault-free source: its state is
the post-expansion state and the probe parse from that state was
empty. -/
theorem sliceStep_ret_probe_empty (src : Source) (f : Nat) (st : SliceSt) (o : StepOut)
    (h : sliceStep src f st = StepRes.ret o)
    (hpn : ∀ m, src.navFault m = false) (hpt : ∀ m, src.layoutTimeout m = false) :
    o.st = (stepCore src f st).1 ∧
    parse_cards_into_rows (src.pageAt (o.st.saved + 1) 0) o.st.sg o.st.ss = [] := by
  simp only [sliceStep, hpn, hpt, Bool.false_and, Bool.or_self, Bool.false_eq_true,
    if_false] at h
  split at h
  · rename_i hprobe
    injection h with h
    subst h
    refine ⟨rfl, ?_⟩
    simpa [List.isEmpty_iff] using hprobe
  · cases h

/-- C6, amended: on a fault-free source a slice iteration ends the slice
exactly when the immediate parse of the completion probe at the advanced
offset yields zero unseen records; the probe page is never expanded
first, so a probe page whose unexpanded view shows only seen records ends
the slice even when expanding it would reveal unseen ones
(C6_counterexample); and a probe that does yield an unseen record repeats
the loop from a strictly advanced offset. -/
theorem C6_completion_is_immediate_probe (src : Source) (st : SliceSt)
    (hpn : ∀ m, src.navFault m = false) (hpt : ∀ m, src.layoutTimeout m = false) :
    (∀ o, sliceStep src MAX_CLICKS_PER_SLICE st = StepRes.ret o →
        parse_cards_into_rows (src.pageAt (o.st.saved + 1) 0) o.st.sg o.st.ss = []) ∧
    (∀ o, sliceStep src MAX_CLICKS_PER_SLICE st = StepRes.next o →
        parse_cards_into_rows (src.pageAt (o.st.saved + 1) 0) o.st.sg o.st.ss ≠ [] ∧
        st.saved < o.st.saved) := by
  constructor
  · intro o h
    exact (sliceStep_ret_probe_empty src _ st o h hpn hpt).2
  · intro o h
    obtain ⟨ho, hne⟩ := sliceStep_next_inv src _ st o h
    refine ⟨hne, ?_⟩
    have hle : st.saved ≤ o.st.saved := by
      rw [ho]; exact stepCore_saved_le src _ st
    rcases Nat.lt_or_ge st.saved o.st.saved with hlt | hge
    · exact hlt
    · exfalso
      have heq : (stepCore src MAX_CLICKS_PER_SLICE st).1.saved = st.saved := by
        rw [← ho]; omega
      obtain ⟨hcs, hrows⟩ := stepCore_st_eq_of_saved_eq src _ st heq
      apply hne
      rw [ho, hcs]
      exact hrows

/-- C6, counterexample.  On srcProbe the run ends the slice with only
tt0000001 stored: the probe at offset 2 parses zero unseen records
immediately and the slice is declared complete, even though the probe
expansion control of that page is present and one expansion click would reveal
the unseen record tt0000002 — the code does not require zero unseen
records after full expansion of the probe page, contradicting the
claimed completion condition. -/
theorem C6_counterexample :
    (scrape_month srcProbe 5 none []).isDone = true ∧
    finalStoreIds (scrape_month srcProbe 5 none []) = ["tt0000001"] ∧
    srcProbe.hasMore 2 0 = true ∧
    (parse_cards_into_rows (srcProbe.pageAt 2 1)
        (scrape_month srcProbe 5 none []).out.st.sg
        (scrape_month srcProbe 5 none []).out.st.ss).map Row.imdbId
      = ["tt0000002"] := by decide

/-- Witness for C6_completion_is_immediate_probe at concrete states of
srcAB. -/
theorem C6_witness :
    (parse_cards_into_rows (srcAB.pageAt (stAB2.saved + 1) 0) stAB2.sg stAB2.ss = []) ∧
    (parse_cards_into_rows (srcAB.pageAt (stAB1.saved + 1) 0) stAB1.sg stAB1.ss ≠ [] ∧
      freshSt.saved < stAB1.saved) :=
  ⟨(C6_completion_is_immediate_probe srcAB stAB2 (fun _ => rfl) (fun _ => rfl)).1
      ⟨stAB2, 2, [LogEvent.noNewAtStart 3, LogEvent.buttonGone], [(3, 2), (3, 2)]⟩
      (by decide),
   (C6_completion_is_immediate_probe srcAB freshSt (fun _ => rfl) (fun _ => rfl)).2
      ⟨stAB1, 2, [LogEvent.savedInitial 1, LogEvent.buttonGone], [(1, 0), (2, 1)]⟩
      (by decide)⟩

/-! ## C7 -/

/-- The expansion loop performs at most fuel further activations. -/
theorem expandLoop_clicks_le (src : Source) (o : Nat) :
    ∀ fuel clicks (st : SliceSt),
      (expandLoop src o fuel clicks st).clicks ≤ clicks + fuel := by
  intro fuel
  induction fuel with
  | zero => intro clicks st; simp [expandLoop]
  | succ f ih =>
    intro clicks st
    unfold expandLoop
    split
    · split
      · simp
      · exact Nat.le_trans (ih (clicks + 1) _) (by omega)
    · simp

/-- Absence of the load-more control stops the loop at once. -/
theorem expandLoop_buttonGone (src : Source) (o fuel clicks : Nat) (st : SliceSt)
    (h : src.hasMore o clicks = false) :
    expandLoop src o (fuel + 1) clicks st = ⟨st, clicks, [LogEvent.buttonGone]⟩ := by
  simp [expandLoop, h]

/-- A step only raises out of the navigation crash guard; the expansion
loop (ceiling hit or not) never aborts the iteration. -/
theorem sliceStep_raised_only_nav (src : Source) (f : Nat) (st : SliceSt) (o : StepOut)
    (h : sliceStep src f st = StepRes.raised o) :
    (src.navFault (st.saved + 1) && src.navFaultRetry (st.saved + 1)) = true := by
  simp only [sliceStep] at h
  split at h
  · rename_i hc; exact hc
  · split at h
    · cases h
    · split at h
      · cases h
      · split at h
        · cases h
        · cases h

/-- C7, amended: the expansion loop terminates for every page window;
absence of the expansion control is the terminal condition (second
conjunct), the loop performs at most its iteration ceiling of further
activations (first conjunct, fuel instantiated at MAX_CLICKS_PER_SLICE by
the caller), and reaching the ceiling is not fatal — a slice iteration
can only abort through the navigation crash guard, never out of the
expansion loop (third conjunct) — but, contrary to the claim, exceeding
the ceiling is not reported (C7_counterexample). -/
theorem C7_expansion_bounded (src : Source) (o fuel clicks : Nat) (st : SliceSt) :
    (expandLoop src o fuel clicks st).clicks ≤ clicks + fuel ∧
    (src.hasMore o clicks = false →
      expandLoop src o (fuel + 1) clicks st = ⟨st, clicks, [LogEvent.buttonGone]⟩) ∧
    (∀ o2, sliceStep src fuel st = StepRes.raised o2 →
      (src.navFault (st.saved + 1) && src.navFaultRetry (st.saved + 1)) = true) := by
  refine ⟨expandLoop_clicks_le src o fuel clicks st, ?_, ?_⟩
  · intro h
    exact expandLoop_buttonGone src o fuel clicks st h
  · intro o2 h
    exact sliceStep_raised_only_nav src fuel st o2 h

/-- Against a button that never disappears over empty pages, the loop
spins untouched through its entire fuel, emitting exactly the per-click
messages. -/
theorem expandLoop_endless (st : SliceSt) :
    ∀ fuel clicks, expandLoop srcEndlessButton 1 fuel clicks st
      = ⟨st, clicks + fuel, List.flatten (List.replicate fuel noNewClickEvents)⟩ := by
  intro fuel
  induction fuel with
  | zero => intro clicks; rfl
  | succ f ih =>
    intro clicks
    unfold expandLoop
    rw [show (parse_cards_into_rows (srcEndlessButton.pageAt 1 (clicks + 1)) st.sg st.ss)
        = [] from rfl]
    simp only [show srcEndlessButton.hasMore 1 clicks = true from rfl,
      show srcEndlessButton.clickFails 1 clicks = false from rfl,
      List.isEmpty_nil, if_true, Bool.false_eq_true, if_false, initialSave]
    rw [ih (clicks + 1)]
    simp [noNewClickEvents, List.replicate_succ, ExpandOut.mk.injEq]
    omega

/-- C7, counterexample.  With the control never absent, the loop stops
exactly at the ceiling MAX_CLICKS_PER_SLICE, and its entire event trace
is the per-click messages repeated: no message reports that the ceiling
was reached, contradicting "exceeding it is reported" (every print site
of the loop has a LogEvent constructor, and none fires at the ceiling
exit). -/
theorem C7_counterexample :
    (expandLoop srcEndlessButton 1 MAX_CLICKS_PER_SLICE 0 freshSt).clicks
        = MAX_CLICKS_PER_SLICE ∧
    (expandLoop srcEndlessButton 1 MAX_CLICKS_PER_SLICE 0 freshSt).events
        = List.flatten (List.replicate MAX_CLICKS_PER_SLICE noNewClickEvents) ∧
    (expandLoop srcEndlessButton 1 MAX_CLICKS_PER_SLICE 0 freshSt).st = freshSt := by
  rw [expandLoop_endless freshSt MAX_CLICKS_PER_SLICE 0]
  exact ⟨rfl, rfl, rfl⟩

/-- Witness for C7_expansion_bounded at a concrete window. -/
theorem C7_witness :
    (expandLoop srcAB 1 3 0 freshSt).clicks ≤ 0 + 3 ∧
    expandLoop srcAB 1 (3 + 1) 0 freshSt = ⟨freshSt, 0, [LogEvent.buttonGone]⟩ :=
  ⟨(C7_expansion_bounded srcAB 1 3 0 freshSt).1,
   (C7_expansion_bounded srcAB 1 3 0 freshSt).2.1 rfl⟩

/-! ## C10 -/

/-- Membership in the store after one append. -/
theorem hydrate_mem_append_rows (store : Option (List CsvLine)) (rows : List Row)
    (x : String) :
    x ∈ hydrate_seen (some (append_rows store rows)) ↔
      x ∈ hydrate_seen store ∨ x ∈ rows.map Row.imdbId := by
  cases store with
  | none => simp [hydrate_seen, append_rows, csvIds, List.filterMap_cons, csvIds_map_row]
  | some ls => simp [hydrate_seen, append_rows, csvIds_append, csvIds_map_row]

/-- growsBy is reflexive with the empty growth set. -/
theorem growsBy_refl (a : SliceSt) : growsBy a a [] := by
  refine ⟨?_, ?_, ?_⟩ <;> intro x <;> simp

/-- growsBy composes, concatenating the growth sets. -/
theorem growsBy_trans {a b c : SliceSt} {n1 n2 : List String}
    (h1 : growsBy a b n1) (h2 : growsBy b c n2) : growsBy a c (n1 ++ n2) := by
  obtain ⟨hg1, hs1, ht1⟩ := h1
  obtain ⟨hg2, hs2, ht2⟩ := h2
  refine ⟨?_, ?_, ?_⟩ <;> intro x <;>
    simp only [hg2 x, hg1 x, hs2 x, hs1 x, ht2 x, ht1 x, List.mem_append] <;> tauto

/-- An append site grows ledger, slice set and store by exactly the
appended identities. -/
theorem growsBy_appendAndMark (st : SliceSt) (rows : List Row) :
    growsBy st (appendAndMark st rows) (rows.map Row.imdbId) := by
  refine ⟨?_, ?_, ?_⟩ <;> intro x
  · simp [appendAndMark]
  · simp [appendAndMark]
  · simp only [appendAndMark]
    exact hydrate_mem_append_rows st.store rows x

/-- A guarded save grows all three stores in lockstep. -/
theorem growsBy_initialSave (st : SliceSt) (rows : List Row) :
    ∃ new, growsBy st (initialSave st rows) new := by
  unfold initialSave
  split
  · exact ⟨[], growsBy_refl st⟩
  · exact ⟨rows.map Row.imdbId, growsBy_appendAndMark st rows⟩

/-- The expansion loop grows all three stores in lockstep. -/
theorem growsBy_expandLoop (src : Source) (o : Nat) :
    ∀ fuel clicks (st : SliceSt),
      ∃ new, growsBy st (expandLoop src o fuel clicks st).st new := by
  intro fuel
  induction fuel with
  | zero => intro clicks st; exact ⟨[], growsBy_refl st⟩
  | succ f ih =>
    intro clicks st
    unfold expandLoop
    split
    · split
      · exact ⟨[], growsBy_refl st⟩
      · obtain ⟨n1, h1⟩ := growsBy_initialSave st
          (parse_cards_into_rows (src.pageAt o (clicks + 1)) st.sg st.ss)
        obtain ⟨n2, h2⟩ := ih (clicks + 1) (initialSave st
          (parse_cards_into_rows (src.pageAt o (clicks + 1)) st.sg st.ss))
        exact ⟨n1 ++ n2, growsBy_trans h1 h2⟩
    · exact ⟨[], growsBy_refl st⟩

/-- The parse-save-expand body grows all three stores in lockstep. -/
theorem growsBy_stepCore (src : Source) (f : Nat) (st : SliceSt) :
    ∃ new, growsBy st (stepCore src f st).1 new := by
  simp only [stepCore]
  obtain ⟨n1, h1⟩ := growsBy_initialSave st
    (parse_cards_into_rows (src.pageAt (st.saved + 1) 0) st.sg st.ss)
  obtain ⟨n2, h2⟩ := growsBy_expandLoop src (st.saved + 1) f 0 (initialSave st
    (parse_cards_into_rows (src.pageAt (st.saved + 1) 0) st.sg st.ss))
  exact ⟨n1 ++ n2, growsBy_trans h1 h2⟩

/-- One outer iteration grows all three stores in lockstep. -/
theorem growsBy_sliceStep (src : Source) (f : Nat) (st : SliceSt) :
    ∃ new, growsBy st (sliceStep src f st).out.st new := by
  rcases sliceStep_out_st src f st with he | he <;> rw [he]
  · exact ⟨[], growsBy_refl st⟩
  · exact growsBy_stepCore src f st

/-- Loop equation: a raising step ends the run with the outcome of that step. -/
theorem sliceLoop_succ_raised (src : Source) (f : Nat) (st : SliceSt) (o : StepOut)
    (h : sliceStep src MAX_CLICKS_PER_SLICE st = StepRes.raised o) :
    sliceLoop src (f + 1) st = SliceRes.raised ⟨o.st, o.gets, o.events, o.trace⟩ := by
  unfold sliceLoop
  rw [h]

/-- Loop equation: a returning step ends the run with the outcome of
that step. -/
theorem sliceLoop_succ_ret (src : Source) (f : Nat) (st : SliceSt) (o : StepOut)
    (h : sliceStep src MAX_CLICKS_PER_SLICE st = StepRes.ret o) :
    sliceLoop src (f + 1) st = SliceRes.done ⟨o.st, o.gets, o.events, o.trace⟩ := by
  unfold sliceLoop
  rw [h]

/-- Loop equation: a continuing step prepends its outcome to the rest of
the run. -/
theorem sliceLoop_succ_next (src : Source) (f : Nat) (st : SliceSt) (o : StepOut)
    (h : sliceStep src MAX_CLICKS_PER_SLICE st = StepRes.next o) :
    (sliceLoop src (f + 1) st).out = combineOut o (sliceLoop src f o.st).out := by
  have haux : ∀ r : SliceRes, (match r with
      | SliceRes.raised o2 => SliceRes.raised (combineOut o o2)
      | SliceRes.done o2 => SliceRes.done (combineOut o o2)
      | SliceRes.fuelOut o2 => SliceRes.fuelOut (combineOut o o2)).out
      = combineOut o r.out := by
    intro r
    rcases r with o2 | o2 | o2 <;> rfl
  have hL : sliceLoop src (f + 1) st
      = match sliceStep src MAX_CLICKS_PER_SLICE st with
        | StepRes.raised o => SliceRes.raised ⟨o.st, o.gets, o.events, o.trace⟩
        | StepRes.ret o => SliceRes.done ⟨o.st, o.gets, o.events, o.trace⟩
        | StepRes.next o =>
          match sliceLoop src f o.st with
          | SliceRes.raised o2 => SliceRes.raised (combineOut o o2)
          | SliceRes.done o2 => SliceRes.done (combineOut o o2)
          | SliceRes.fuelOut o2 => SliceRes.fuelOut (combineOut o o2) := rfl
  rw [hL, h]
  exact haux (sliceLoop src f o.st)

/-- A whole slice run grows all three stores in lockstep. -/
theorem growsBy_sliceLoop (src : Source) :
    ∀ fuel (st : SliceSt), ∃ new, growsBy st (sliceLoop src fuel st).out.st new := by
  intro fuel
  induction fuel with
  | zero => intro st; exact ⟨[], growsBy_refl st⟩
  | succ f ih =>
    intro st
    obtain ⟨n1, h1⟩ := growsBy_sliceStep src MAX_CLICKS_PER_SLICE st
    rcases he : sliceStep src MAX_CLICKS_PER_SLICE st with o | o | o <;>
      rw [he] at h1 <;> simp only [StepRes.out] at h1
    · rw [sliceLoop_succ_raised src f st o he]
      exact ⟨n1, h1⟩
    · rw [sliceLoop_succ_ret src f st o he]
      exact ⟨n1, h1⟩
    · obtain ⟨n2, h2⟩ := ih o.st
      have heq := sliceLoop_succ_next src f st o he
      refine ⟨n1 ++ n2, ?_⟩
      have : (sliceLoop src (f + 1) st).out.st = (sliceLoop src f o.st).out.st := by
        rw [heq]
        rfl
      rw [this]
      exact growsBy_trans h1 h2

/-- C10: the parse step mutates nothing: over any slice run the global
ledger and the slice set grow by exactly the identity set that was
durably appended to the store (first conjunct: one growth set accounts
for ledger, slice set and store simultaneously, so growth happens only at
the append sites); and the rows parsed by a completion probe are not
marked seen — the fetch of the continuing iteration at the same offset,
parsing with the same sets, still finds them (second conjunct). -/
theorem C10_seen_grows_only_with_store (src : Source) (fuel : Nat) (st : SliceSt) :
    (∃ new, growsBy st (sliceLoop src fuel st).out.st new) ∧
    (∀ o, sliceStep src MAX_CLICKS_PER_SLICE st = StepRes.next o →
        parse_cards_into_rows (src.pageAt (o.st.saved + 1) 0) o.st.sg o.st.ss ≠ []) := by
  constructor
  · exact growsBy_sliceLoop src fuel st
  · intro o h
    exact (sliceStep_next_inv src _ st o h).2

/-- Witness for C10_seen_grows_only_with_store at the concrete srcAB. -/
theorem C10_witness :
    (∃ new, growsBy freshSt (sliceLoop srcAB 5 freshSt).out.st new) ∧
    parse_cards_into_rows (srcAB.pageAt (stAB1.saved + 1) 0) stAB1.sg stAB1.ss ≠ [] :=
  ⟨(C10_seen_grows_only_with_store srcAB 5 freshSt).1,
   (C10_seen_grows_only_with_store srcAB 5 freshSt).2
      ⟨stAB1, 2, [LogEvent.savedInitial 1, LogEvent.buttonGone], [(1, 0), (2, 1)]⟩
      (by decide)⟩

/-! ## C3 -/

/-- C3, counterexample.  On srcAB an uninterrupted run persists both
identities; interrupting the run right after its first append (the store
then holds exactly the header and rowA, a genuine mid-slice crash point)
and restarting with the ledger rehydrated from that store persists only
tt0000001: the restart re-walks offset 1, finds nothing new, probes
offset saved_in_slice + 1 = 1 again (the in-run counter restarted at 0),
finds nothing new, and declares the slice complete without ever fetching
offset 2 - so resume is not equivalent to an uninterrupted run for every
source state. -/
theorem C3_counterexample :
    finalStoreIds (resumeRun srcAB 5 none) = ["tt0000001", "tt0000002"] ∧
    finalStoreIds (resumeRun srcAB 5 (some (append_rows none
        (parse_cards_into_rows (pageOf [cardA]) [] [])))) = ["tt0000001"] ∧
    (resumeRun srcAB 5 (some (append_rows none
        (parse_cards_into_rows (pageOf [cardA]) [] [])))).isDone = true := by decide

/-- Filtering rows on a predicate of their identity commutes with taking
identities. -/
theorem map_filter_comm (l : List Row) (p : String → Bool) :
    (l.filter (fun r => p r.imdbId)).map Row.imdbId = (l.map Row.imdbId).filter p := by
  induction l with
  | nil => rfl
  | cons r t ih => by_cases h : p r.imdbId <;> simp [List.filter_cons, h, ih]

/-- The identities emitted by one parse pass are the identities of the
page filtered for freshness. -/
theorem parse_ids (page : Page) (sg ss : List String) :
    (parse_cards_into_rows page sg ss).map Row.imdbId
      = (pageRowIds page).filter
          (fun x => !(x == "" || sg.contains x || ss.contains x)) := by
  simp only [parse_cards_into_rows, pageRowIds, keepRow]
  exact map_filter_comm
    ((get_all_cards page).1.filterMap (parseCard (get_all_cards page).2))
    (fun x => !(x == "" || sg.contains x || ss.contains x))

/-- Membership form of parse_ids. -/
theorem mem_parse_ids (page : Page) (sg ss : List String) (x : String) :
    x ∈ (parse_cards_into_rows page sg ss).map Row.imdbId ↔
      x ∈ pageRowIds page ∧ x ≠ "" ∧ x ∉ sg ∧ x ∉ ss := by
  rw [parse_ids]
  simp [List.mem_filter]
  tauto

/-- A page whose non-empty identities are all in the ledger parses to
zero fresh rows. -/
theorem parse_eq_nil_of_seen (page : Page) (sg ss : List String)
    (h : ∀ x, x ∈ pageRowIds page → x ≠ "" → x ∈ sg) :
    parse_cards_into_rows page sg ss = [] := by
  have hm : (parse_cards_into_rows page sg ss).map Row.imdbId = [] := by
    by_contra hne
    obtain ⟨x, hx⟩ := List.exists_mem_of_ne_nil _ hne
    obtain ⟨h1, h2, h3, h4⟩ := (mem_parse_ids page sg ss x).mp hx
    exact h3 (h x h1 h2)
  simpa using hm

/-- Effect of the guarded save on the ledger: it gains exactly the fresh
non-empty identities of the page (assuming the slice set is inside the
ledger). -/
theorem save_step_sg (page : Page) (st : SliceSt)
    (hss : ∀ x, x ∈ st.ss → x ∈ st.sg) (x : String) :
    x ∈ (initialSave st (parse_cards_into_rows page st.sg st.ss)).sg ↔
      x ∈ st.sg ∨ (x ≠ "" ∧ x ∈ pageRowIds page) := by
  unfold initialSave
  split
  · rename_i hemp
    rw [List.isEmpty_iff] at hemp
    constructor
    · exact Or.inl
    · rintro (hx | ⟨hx1, hx2⟩)
      · exact hx
      · by_contra hsg
        have : x ∈ (parse_cards_into_rows page st.sg st.ss).map Row.imdbId := by
          rw [mem_parse_ids]
          exact ⟨hx2, hx1, hsg, fun hx3 => hsg (hss x hx3)⟩
        rw [hemp] at this
        simp at this
  · simp only [appendAndMark, List.mem_append]
    rw [mem_parse_ids]
    constructor
    · rintro (hx | ⟨h1, h2, h3, h4⟩)
      · exact Or.inl hx
      · exact Or.inr ⟨h2, h1⟩
    · rintro (hx | ⟨hx1, hx2⟩)
      · exact Or.inl hx
      · by_cases hsg : x ∈ st.sg
        · exact Or.inl hsg
        · exact Or.inr ⟨hx2, hx1, hsg, fun hx3 => hsg (hss x hx3)⟩

/-- The guarded save keeps the slice set inside the ledger. -/
theorem save_step_ss_sub (page : Page) (st : SliceSt)
    (hss : ∀ x, x ∈ st.ss → x ∈ st.sg) (x : String) :
    x ∈ (initialSave st (parse_cards_into_rows page st.sg st.ss)).ss →
    x ∈ (initialSave st (parse_cards_into_rows page st.sg st.ss)).sg := by
  unfold initialSave
  split
  · exact hss x
  · simp only [appendAndMark, List.mem_append]
    rintro (hx | hx)
    · exact Or.inl (hss x hx)
    · exact Or.inr hx

/-- Effect of the guarded save on the persisted store: it gains exactly
what the ledger gained. -/
theorem save_step_store (page : Page) (st : SliceSt)
    (hss : ∀ x, x ∈ st.ss → x ∈ st.sg) (x : String) :
    x ∈ hydrate_seen (initialSave st (parse_cards_into_rows page st.sg st.ss)).store ↔
      x ∈ hydrate_seen st.store ∨
        (x ∈ (initialSave st (parse_cards_into_rows page st.sg st.ss)).sg ∧
          x ∉ st.sg) := by
  unfold initialSave
  split
  · simp
  · simp only [appendAndMark, List.mem_append]
    rw [hydrate_mem_append_rows]
    constructor
    · rintro (hx | hx)
      · exact Or.inl hx
      · have := (mem_parse_ids page st.sg st.ss x).mp hx
        exact Or.inr ⟨Or.inr hx, this.2.2.1⟩
    · rintro (hx | ⟨hx1 | hx1, hx2⟩)
      · exact Or.inl hx
      · exact absurd hx1 hx2
      · exact Or.inr hx1

/-- One step of the expansion loop under a present button and a working
click: the state continues from the saved-and-marked parse of the next
window. -/
theorem expandLoop_step_st (src : Source) (o f clicks : Nat) (st : SliceSt)
    (hm : src.hasMore o clicks = true) (hc : src.clickFails o clicks = false) :
    (expandLoop src o (f + 1) clicks st).st
      = (expandLoop src o f (clicks + 1)
          (initialSave st (parse_cards_into_rows (src.pageAt o (clicks + 1))
            st.sg st.ss))).st := by
  simp only [expandLoop, hm, hc]
  simp only [if_true, Bool.false_eq_true, if_false]

/-- Main expansion invariant at offset 1: with the button present before
click K, gone at click K, and fuel beyond K - clicks, the ledger after
the loop holds exactly its entry content plus the fresh non-empty
identities of the windows rendered by the remaining clicks; the slice
set stays inside the ledger; and the store gains exactly what the ledger
gains. -/
theorem expandLoop_cover (src : Source) (K : Nat)
    (hcf : ∀ o k, src.clickFails o k = false)
    (hmore : ∀ j, j < K → src.hasMore 1 j = true)
    (hstop : src.hasMore 1 K = false) :
    ∀ fuel clicks (st : SliceSt), clicks ≤ K → K - clicks < fuel →
      (∀ x, x ∈ st.ss → x ∈ st.sg) →
      (∀ x, x ∈ (expandLoop src 1 fuel clicks st).st.sg ↔
        x ∈ st.sg ∨ (x ≠ "" ∧ ∃ j, clicks + 1 ≤ j ∧ j ≤ K ∧
          x ∈ pageRowIds (src.pageAt 1 j))) ∧
      (∀ x, x ∈ (expandLoop src 1 fuel clicks st).st.ss →
        x ∈ (expandLoop src 1 fuel clicks st).st.sg) ∧
      (∀ x, x ∈ hydrate_seen (expandLoop src 1 fuel clicks st).st.store ↔
        x ∈ hydrate_seen st.store ∨
          (x ∈ (expandLoop src 1 fuel clicks st).st.sg ∧ x ∉ st.sg)) := by
  intro fuel
  induction fuel with
  | zero =>
    intro clicks st hck hfu hss
    omega
  | succ f ih =>
    intro clicks st hck hfu hss
    by_cases hKc : clicks = K
    · subst hKc
      rw [expandLoop_buttonGone src 1 f clicks st hstop]
      refine ⟨?_, hss, ?_⟩
      · intro x
        constructor
        · exact Or.inl
        · rintro (hx | ⟨hx1, j, hj1, hj2, hj3⟩)
          · exact hx
          · omega
      · intro x
        constructor
        · exact Or.inl
        · rintro (hx | ⟨hx1, hx2⟩)
          · exact hx
          · exact absurd hx1 hx2
    · have hlt : clicks < K := by omega
      have hm := hmore clicks hlt
      rw [expandLoop_step_st src 1 f clicks st hm (hcf 1 clicks)]
      have h1 := save_step_sg (src.pageAt 1 (clicks + 1)) st hss
      have h2 := save_step_ss_sub (src.pageAt 1 (clicks + 1)) st hss
      have h3 := save_step_store (src.pageAt 1 (clicks + 1)) st hss
      obtain ⟨A, B, C⟩ := ih (clicks + 1)
        (initialSave st (parse_cards_into_rows (src.pageAt 1 (clicks + 1)) st.sg st.ss))
        (by omega) (by omega) h2
      refine ⟨?_, B, ?_⟩
      · intro x
        rw [A x, h1 x]
        constructor
        · rintro ((hx | ⟨hx1, hx2⟩) | ⟨hx1, j, hj1, hj2, hj3⟩)
          · exact Or.inl hx
          · exact Or.inr ⟨hx1, clicks + 1, by omega, by omega, hx2⟩
          · exact Or.inr ⟨hx1, j, by omega, hj2, hj3⟩
        · rintro (hx | ⟨hx1, j, hj1, hj2, hj3⟩)
          · exact Or.inl (Or.inl hx)
          · by_cases hj : j = clicks + 1
            · subst hj
              exact Or.inl (Or.inr ⟨hx1, hj3⟩)
            · exact Or.inr ⟨hx1, j, by omega, hj2, hj3⟩
      · intro x
        have m1 : x ∈ st.sg →
            x ∈ (initialSave st (parse_cards_into_rows (src.pageAt 1 (clicks + 1))
              st.sg st.ss)).sg := fun hx => (h1 x).mpr (Or.inl hx)
        have m2 : x ∈ (initialSave st (parse_cards_into_rows (src.pageAt 1 (clicks + 1))
            st.sg st.ss)).sg →
            x ∈ (expandLoop src 1 f (clicks + 1)
              (initialSave st (parse_cards_into_rows (src.pageAt 1 (clicks + 1))
                st.sg st.ss))).st.sg := fun hx => (A x).mpr (Or.inl hx)
        rw [C x, h3 x]
        tauto

/-- The parse-save-expand body of the first iteration of a slice run
(saved_in_slice = 0) collects in the ledger exactly the fresh non-empty
identities exposed at offset 1 across the full expansion click sequence,
keeps the slice set inside the ledger, and grows the store by exactly
the ledger growth. -/
theorem stepCore_cover (src : Source) (K : Nat)
    (hcf : ∀ o k, src.clickFails o k = false)
    (hmore : ∀ j, j < K → src.hasMore 1 j = true)
    (hstop : src.hasMore 1 K = false)
    (f : Nat) (hf : K < f) (st : SliceSt) (hsaved : st.saved = 0)
    (hss : ∀ x, x ∈ st.ss → x ∈ st.sg) :
    (∀ x, x ∈ (stepCore src f st).1.sg ↔
      x ∈ st.sg ∨ (x ≠ "" ∧ ∃ j, j ≤ K ∧ x ∈ pageRowIds (src.pageAt 1 j))) ∧
    (∀ x, x ∈ (stepCore src f st).1.ss → x ∈ (stepCore src f st).1.sg) ∧
    (∀ x, x ∈ hydrate_seen (stepCore src f st).1.store ↔
      x ∈ hydrate_seen st.store ∨
        (x ∈ (stepCore src f st).1.sg ∧ x ∉ st.sg)) := by
  have hcore : (stepCore src f st).1
      = (expandLoop src 1 f 0 (initialSave st
          (parse_cards_into_rows (src.pageAt 1 0) st.sg st.ss))).st := by
    simp only [stepCore, hsaved, Nat.zero_add]
  have h1 := save_step_sg (src.pageAt 1 0) st hss
  have h2 := save_step_ss_sub (src.pageAt 1 0) st hss
  have h3 := save_step_store (src.pageAt 1 0) st hss
  obtain ⟨A, B, C⟩ := expandLoop_cover src K hcf hmore hstop f 0
    (initialSave st (parse_cards_into_rows (src.pageAt 1 0) st.sg st.ss))
    (Nat.zero_le K) (by omega) h2
  rw [hcore]
  refine ⟨?_, B, ?_⟩
  · intro x
    rw [A x, h1 x]
    constructor
    · rintro ((hx | ⟨hx1, hx2⟩) | ⟨hx1, j, hj1, hj2, hj3⟩)
      · exact Or.inl hx
      · exact Or.inr ⟨hx1, 0, Nat.zero_le K, hx2⟩
      · exact Or.inr ⟨hx1, j, hj2, hj3⟩
    · rintro (hx | ⟨hx1, j, hj2, hj3⟩)
      · exact Or.inl (Or.inl hx)
      · by_cases hj : j = 0
        · subst hj
          exact Or.inl (Or.inr ⟨hx1, hj3⟩)
        · exact Or.inr ⟨hx1, j, by omega, hj2, hj3⟩
  · intro x
    have m1 : x ∈ st.sg →
        x ∈ (initialSave st (parse_cards_into_rows (src.pageAt 1 0)
          st.sg st.ss)).sg := fun hx => (h1 x).mpr (Or.inl hx)
    have m2 : x ∈ (initialSave st (parse_cards_into_rows (src.pageAt 1 0)
        st.sg st.ss)).sg →
        x ∈ (expandLoop src 1 f 0
          (initialSave st (parse_cards_into_rows (src.pageAt 1 0)
            st.sg st.ss))).st.sg := fun hx => (A x).mpr (Or.inl hx)
    rw [C x, h3 x]
    tauto

/-- Under fault-freedom and expansion completeness at offset 1 (every
identity of the corpus allIds is exposed by some window of the offset-1
expansion sequence, and every window anywhere only exposes corpus
identities), any slice run started from a store whose identities lie in
the corpus ends with the store holding exactly the corpus. -/
theorem slice_run_covers (src : Source) (allIds : List String) (K : Nat)
    (hpn : ∀ m, src.navFault m = false) (hpt : ∀ m, src.layoutTimeout m = false)
    (hcf : ∀ o k, src.clickFails o k = false)
    (hK : K < MAX_CLICKS_PER_SLICE)
    (hmore : ∀ j, j < K → src.hasMore 1 j = true)
    (hstop : src.hasMore 1 K = false)
    (hsub : ∀ o k x, x ∈ pageRowIds (src.pageAt o k) → x ∈ allIds)
    (hne : "" ∉ allIds)
    (hcov : ∀ x, x ∈ allIds → ∃ j, j ≤ K ∧ x ∈ pageRowIds (src.pageAt 1 j))
    (store : Option (List CsvLine)) (hS : ∀ x, x ∈ hydrate_seen store → x ∈ allIds)
    (fuel : Nat) (hfuel : 1 ≤ fuel) :
    ∀ x, x ∈ finalStoreIds (resumeRun src fuel store) ↔ x ∈ allIds := by
  obtain ⟨n, rfl⟩ : ∃ n, fuel = n + 1 := ⟨fuel - 1, by omega⟩
  have hss0 : ∀ x, x ∈ (⟨store, hydrate_seen store, [], 0⟩ : SliceSt).ss →
      x ∈ (⟨store, hydrate_seen store, [], 0⟩ : SliceSt).sg := by
    intro x hx
    simp at hx
  obtain ⟨A, B, C⟩ := stepCore_cover src K hcf hmore hstop MAX_CLICKS_PER_SLICE hK
    ⟨store, hydrate_seen store, [], 0⟩ rfl hss0
  have hallE : ∀ x, x ∈ allIds →
      (x ≠ "" ∧ ∃ j, j ≤ K ∧ x ∈ pageRowIds (src.pageAt 1 j)) := by
    intro x hx
    exact ⟨fun he => hne (he ▸ hx), hcov x hx⟩
  have hprobe : parse_cards_into_rows
      (src.pageAt ((stepCore src MAX_CLICKS_PER_SLICE
        ⟨store, hydrate_seen store, [], 0⟩).1.saved + 1) 0)
      (stepCore src MAX_CLICKS_PER_SLICE ⟨store, hydrate_seen store, [], 0⟩).1.sg
      (stepCore src MAX_CLICKS_PER_SLICE ⟨store, hydrate_seen store, [], 0⟩).1.ss
      = [] := by
    apply parse_eq_nil_of_seen
    intro y hy hyne
    exact (A y).mpr (Or.inr (hallE y (hsub _ _ y hy)))
  rcases hstep : sliceStep src MAX_CLICKS_PER_SLICE
      ⟨store, hydrate_seen store, [], 0⟩ with o | o | o
  · exfalso
    have hh := sliceStep_raised_only_nav src _ _ o hstep
    rw [hpn] at hh
    simp at hh
  · have host := (sliceStep_ret_probe_empty src _ _ o hstep hpn hpt).1
    have hdone := sliceLoop_succ_ret src n _ o hstep
    intro x
    have hfin : finalStoreIds (resumeRun src (n + 1) store)
        = hydrate_seen o.st.store := by
      unfold resumeRun scrape_month finalStoreIds
      rw [hdone]
      rfl
    rw [hfin, host]
    rw [C x]
    constructor
    · rintro (hx | ⟨hx1, hx2⟩)
      · exact hS x hx
      · rcases (A x).mp hx1 with hx3 | hx3
        · exact absurd hx3 hx2
        · exact hsub 1 hx3.2.choose x hx3.2.choose_spec.2
    · intro hx
      have hxc : x ∈ (stepCore src MAX_CLICKS_PER_SLICE
          ⟨store, hydrate_seen store, [], 0⟩).1.sg :=
        (A x).mpr (Or.inr (hallE x hx))
      by_cases hxs : x ∈ hydrate_seen store
      · exact Or.inl hxs
      · exact Or.inr ⟨hxc, hxs⟩
  · exfalso
    obtain ⟨host, hne2⟩ := sliceStep_next_inv src _ _ o hstep
    rw [host] at hne2
    exact hne2 hprobe

/-- C3, amended: resume equivalence holds for expansion-complete sources
but not in general.  If the source is fault-free, the offset-1 expansion
sequence terminates within the click ceiling and exposes every identity
of the corpus, and every rendered window exposes only corpus identities,
then restarting the pipeline on any mid-run store (its identities lie in
the corpus; the ledger is rehydrated from it) ends with exactly the
corpus persisted - the same final record set as an uninterrupted run,
differing at most in row order.  Without the expansion-completeness
condition the equivalence fails: a source paginating fresh records at a
later offset with no expansion control loses them on resume
(C3_counterexample), because the restarted slice re-derives offset 1 and
its completion probe re-fetches offset 1. -/
theorem C3_resume_equivalence (src : Source) (allIds : List String) (K : Nat)
    (hpn : ∀ m, src.navFault m = false) (hpt : ∀ m, src.layoutTimeout m = false)
    (hcf : ∀ o k, src.clickFails o k = false)
    (hK : K < MAX_CLICKS_PER_SLICE)
    (hmore : ∀ j, j < K → src.hasMore 1 j = true)
    (hstop : src.hasMore 1 K = false)
    (hsub : ∀ o k x, x ∈ pageRowIds (src.pageAt o k) → x ∈ allIds)
    (hne : "" ∉ allIds)
    (hcov : ∀ x, x ∈ allIds → ∃ j, j ≤ K ∧ x ∈ pageRowIds (src.pageAt 1 j))
    (store : Option (List CsvLine)) (hS : ∀ x, x ∈ hydrate_seen store → x ∈ allIds)
    (fuel : Nat) (hfuel : 1 ≤ fuel) :
    (∀ x, x ∈ finalStoreIds (resumeRun src fuel store) ↔ x ∈ allIds) ∧
    (∀ x, x ∈ finalStoreIds (resumeRun src fuel none) ↔ x ∈ allIds) ∧
    (∀ x, x ∈ finalStoreIds (resumeRun src fuel store) ↔
      x ∈ finalStoreIds (resumeRun src fuel none)) := by
  have h1 := slice_run_covers src allIds K hpn hpt hcf hK hmore hstop hsub hne hcov
    store hS fuel hfuel
  have h2 := slice_run_covers src allIds K hpn hpt hcf hK hmore hstop hsub hne hcov
    none (by intro x hx; simp [hydrate_seen] at hx) fuel hfuel
  exact ⟨h1, h2, fun x => (h1 x).trans (h2 x).symm⟩

/-- Witness for C3_resume_equivalence: srcAB restricted to its offset-1
page (no pagination beyond the expansion) is expansion-complete with
K = 0, and the theorem applies to the one-row interrupted store. -/
theorem C3_witness :
    (∀ x, x ∈ finalStoreIds (resumeRun srcOnePage 3
        (some [CsvLine.header, CsvLine.row rowA])) ↔ x ∈ ["tt0000001"]) ∧
    (∀ x, x ∈ finalStoreIds (resumeRun srcOnePage 3 none) ↔ x ∈ ["tt0000001"]) ∧
    (∀ x, x ∈ finalStoreIds (resumeRun srcOnePage 3
        (some [CsvLine.header, CsvLine.row rowA])) ↔
      x ∈ finalStoreIds (resumeRun srcOnePage 3 none)) :=
  C3_resume_equivalence srcOnePage ["tt0000001"] 0
    (fun _ => rfl) (fun _ => rfl) (fun _ _ => rfl)
    (by decide)
    (fun j hj => absurd hj (by omega)) rfl
    (by intro o k x hx
        rw [show srcOnePage.pageAt o k = pageOf [cardA] from rfl,
          show pageRowIds (pageOf [cardA]) = ["tt0000001"] by decide] at hx
        exact hx)
    (by decide)
    (by intro x hx
        refine ⟨0, Nat.le_refl 0, ?_⟩
        rw [show pageRowIds (srcOnePage.pageAt 1 0) = ["tt0000001"] by decide]
        exact hx)
    (some [CsvLine.header, CsvLine.row rowA])
    (by intro x hx
        rw [show hydrate_seen (some [CsvLine.header, CsvLine.row rowA])
            = ["tt0000001"] by decide] at hx
        exact hx)
    3 (by decide)

/-- Witness for C2_no_backoff_controller at the concrete blocked
sources. -/
theorem C2_witness :
    (runSliceWithRecovery srcBlocked 3 none []).crashed = true ∧
    (runSliceWithRecovery srcBlocked 3 none []).gets = 4 ∧
    (runSliceWithRecovery srcBlocked 3 none []).events = [] ∧
    scrape_month srcSoftBlocked 3 none []
      = SliceRes.done ⟨⟨none, [], [], 0⟩, 1, [], [(1, 0)]⟩ :=
  C2_no_backoff_controller srcBlocked srcSoftBlocked (fun _ => rfl) (fun _ => rfl)
    (fun _ => rfl) (fun _ => rfl) 3 (by decide) none []
